import Mathlib

/-!
Shallow embedding of the self-healing element-resolution engine of the
saucedemo-tests repository (source: `utils/selfHealing.ts`, class
`SelfHealingUtils`, and `pages/SelfHealingBasePage.ts`).

The browser-automation surface (Playwright `Page`/`Locator`) is an external
collaborator; it is modelled as an oracle (`Page` below) that decides, for
each selector and timeout, whether `locator(sel).waitFor({timeout})`
succeeds, and whether each action primitive succeeds.  The engine's
observable effects (healing-log appends, console output, screenshot
captures, backoff delays, which selectors were attempted with which
timeout) are threaded through an explicit `EngineState`.  Timestamps
(`new Date().toISOString()` in the source) are modelled as a supply of
strings in the state, popped at each use.  Thrown exceptions are modelled
with `Except`.
-/

namespace SelfHealing

/-- Element type tag of a `SelectorStrategy` (source line 15:
`elementType: 'button' | 'input' | 'link' | 'text' | 'generic'`). -/
inductive ElementType
  | button
  | input
  | link
  | text
  | generic
  deriving DecidableEq, Repr

/-- `SelectorStrategy` interface (source lines 11-16). -/
structure SelectorStrategy where
  primary : String
  fallbacks : List String
  description : String
  elementType : ElementType
  deriving DecidableEq, Repr

/-- `SelfHealingConfig` interface (source lines 21-26).  `retryDelay` is in
milliseconds; the source uses JS numbers, always non-negative integers here. -/
structure SelfHealingConfig where
  maxRetries : Nat
  retryDelay : Nat
  enableLogging : Bool
  screenshotOnFailure : Bool
  deriving DecidableEq, Repr

/-- The constructor defaults (source lines 38-44). -/
def defaultConfig : SelfHealingConfig :=
  { maxRetries := 3, retryDelay := 1000, enableLogging := true,
    screenshotOnFailure := true }

/-- Which tier of `findElement` issued a locate-and-wait attempt.  This is
model instrumentation used to state the ordering/timeout claims. -/
inductive Phase
  | primary
  | fallback
  | heuristic
  deriving DecidableEq, Repr

/-- One `locator(sel).waitFor({timeout})` attempt issued by the engine. -/
structure Attempt where
  sel : String
  timeoutMs : Nat
  phase : Phase
  deriving DecidableEq, Repr

/-- Oracle for the external Playwright page: the outcome of each primitive
the engine calls.  `waitForOk sel t` decides whether
`page.locator(sel).waitFor({timeout: t})` resolves within the timeout;
`clickOk k` / `clearFillOk k` give the outcome of the k-th (1-indexed)
standard click / clear+fill attempt inside `retryOperation`; the text
accessors return `Except.error ()` when the corresponding Playwright call
throws. -/
structure Page where
  waitForOk : String → Nat → Bool
  screenshotOk : Bool
  clickOk : Nat → Bool
  forceClickOk : Bool
  jsClickOk : Bool
  clearFillOk : Nat → Bool
  keyboardFillOk : Bool
  jsFillOk : Bool
  textContentR : Except Unit (Option String)
  innerTextR : Except Unit String
  evalTextR : Except Unit (Option String)
  writeFileOk : Bool

/-- Observable state threaded through the engine: the private
`healingLog` array, console output, the trace of locate attempts,
the number of screenshots captured, the backoff delays waited, and the
supply of timestamp strings. -/
structure EngineState where
  healingLog : List String
  console : List String
  attempts : List Attempt
  screenshots : Nat
  delays : List Nat
  tsSupply : List String
  deriving DecidableEq, Repr

/-- An initial state with a given timestamp supply. -/
def initState (tss : List String) : EngineState :=
  { healingLog := [], console := [], attempts := [], screenshots := 0,
    delays := [], tsSupply := tss }

/-- Timeout used for the primary selector (source line 56: `timeout: 5000`). -/
def primaryTimeoutMs : Nat := 5000

/-- Timeout used for each fallback selector (source line 75: `timeout: 3000`). -/
def fallbackTimeoutMs : Nat := 3000

/-- Timeout used for each heuristic candidate in `tryStrategies`
(source line 366: `timeout: 2000`). -/
def heuristicTimeoutMs : Nat := 2000

/-- Record one locate-and-wait attempt in the trace. -/
def recordAttempt (sel : String) (t : Nat) (ph : Phase) (st : EngineState) :
    EngineState :=
  { st with attempts := st.attempts ++ [⟨sel, t, ph⟩] }

/-- Append a console message when `enableLogging` is set (the
`if (this.config.enableLogging) console.log(...)` pattern). -/
def consoleLog (cfg : SelfHealingConfig) (msg : String) (st : EngineState) :
    EngineState :=
  if cfg.enableLogging then { st with console := st.console ++ [msg] } else st

/-- The log-entry string built by `logHealing` (source lines 404-406):
`timestamp - status - description: originalSelector → healedSelector`,
where the status is the emoji-prefixed `🔧 HEALED` or `❌ FAILED`. -/
def logEntryStr (ts : String) (failed : Bool) (description originalSelector
    healedSelector : String) : String :=
  ts ++ " - " ++ (if failed then "❌ FAILED" else "🔧 HEALED") ++ " - " ++
    description ++ ": " ++ originalSelector ++ " → " ++ healedSelector

/-- `logHealing` (source lines 403-413): push the entry onto `healingLog`;
echo it to the console iff `enableLogging`.  The timestamp is popped from
the state's supply. -/
def logHealing (cfg : SelfHealingConfig) (originalSelector healedSelector
    description : String) (failed : Bool) (st : EngineState) : EngineState :=
  let ts := st.tsSupply.headD ""
  let entry := logEntryStr ts failed description originalSelector healedSelector
  { st with
      healingLog := st.healingLog ++ [entry]
      tsSupply := st.tsSupply.tail
      console := if cfg.enableLogging then st.console ++ [entry] else st.console }

/-- ASCII lowering of one character, as JS `toLowerCase` acts on the ASCII
range (the only characters the descriptions in this repository use). -/
def charToLower (c : Char) : Char :=
  if 65 ≤ c.toNat ∧ c.toNat ≤ 90 then Char.ofNat (c.toNat + 32) else c

/-- JS `String.prototype.toLowerCase`, modelled as per-character ASCII
lowering. -/
def jsToLower (s : String) : String := String.mk (s.data.map charToLower)

/-- Substring occurrence over character lists. -/
def containsSub (hay needle : List Char) : Bool :=
  match hay with
  | [] => needle.isEmpty
  | _ :: t => needle.isPrefixOf hay || containsSub t needle

/-- JS `String.prototype.includes`: `t` occurs as a contiguous substring
of `s`. -/
def strIncludes (s t : String) : Bool := containsSub s.data t.data

/-- Candidate list of `findButtonByContext` (source lines 232-271), in push
order: the six common patterns, then the login, add+cart and checkout
keyword extras. -/
def findButtonStrategies (d : String) : List String :=
  ["button:has-text(\"" ++ d ++ "\")",
   "[role=\"button\"]:has-text(\"" ++ d ++ "\")",
   "input[type=\"button\"][value*=\"" ++ d ++ "\"]",
   "input[type=\"submit\"][value*=\"" ++ d ++ "\"]",
   ".btn:has-text(\"" ++ d ++ "\")",
   ".button:has-text(\"" ++ d ++ "\")"]
  ++ (if strIncludes d "login" then
        ["button[type=\"submit\"]", "[data-test*=\"login\"]",
         "[id*=\"login\"]", ".login-btn"]
      else [])
  ++ (if strIncludes d "add" && strIncludes d "cart" then
        ["[data-test*=\"add-to-cart\"]", "[data-test*=\"add\"]",
         ".add-to-cart", "button:has-text(\"Add\")"]
      else [])
  ++ (if strIncludes d "checkout" then
        ["[data-test*=\"checkout\"]", ".checkout-btn",
         "button:has-text(\"Checkout\")"]
      else [])

/-- Candidate list of `findInputByContext` (source lines 276-312). -/
def findInputStrategies (d : String) : List String :=
  ["input[placeholder*=\"" ++ d ++ "\"]",
   "input[name*=\"" ++ d ++ "\"]",
   "input[id*=\"" ++ d ++ "\"]",
   "[data-test*=\"" ++ d ++ "\"]"]
  ++ (if strIncludes d "username" then
        ["input[type=\"text\"]", "input[name=\"username\"]",
         "input[name=\"user\"]", "input[id*=\"username\"]",
         "input[id*=\"user\"]"]
      else [])
  ++ (if strIncludes d "password" then
        ["input[type=\"password\"]", "input[name=\"password\"]",
         "input[name=\"pass\"]", "input[id*=\"password\"]"]
      else [])
  ++ (if strIncludes d "email" then
        ["input[type=\"email\"]", "input[name=\"email\"]",
         "input[id*=\"email\"]"]
      else [])

/-- Candidate list of `findLinkByContext` (source lines 317-326). -/
def findLinkStrategies (d : String) : List String :=
  ["a:has-text(\"" ++ d ++ "\")",
   "[role=\"link\"]:has-text(\"" ++ d ++ "\")",
   "a[href*=\"" ++ d ++ "\"]",
   ".link:has-text(\"" ++ d ++ "\")"]

/-- Candidate list of `findTextByContext` (source lines 331-341). -/
def findTextStrategies (d : String) : List String :=
  [":text(\"" ++ d ++ "\")",
   ":text-is(\"" ++ d ++ "\")",
   "*:has-text(\"" ++ d ++ "\")",
   "[aria-label*=\"" ++ d ++ "\"]",
   ".text:has-text(\"" ++ d ++ "\")"]

/-- Candidate list of `findGenericByContext` (source lines 346-357). -/
def findGenericStrategies (d : String) : List String :=
  ["[data-test*=\"" ++ d ++ "\"]",
   "[data-testid*=\"" ++ d ++ "\"]",
   "[id*=\"" ++ d ++ "\"]",
   "[class*=\"" ++ d ++ "\"]",
   "[aria-label*=\"" ++ d ++ "\"]",
   ":has-text(\"" ++ d ++ "\")"]

/-- Dispatch of `intelligentFallback` (source lines 212-227) to the
per-type candidate generator; `d` is the already-lowercased description. -/
def intelligentCandidates : ElementType → String → List String
  | ElementType.button, d => findButtonStrategies d
  | ElementType.input, d => findInputStrategies d
  | ElementType.link, d => findLinkStrategies d
  | ElementType.text, d => findTextStrategies d
  | ElementType.generic, d => findGenericStrategies d

/-- `tryStrategies` (source lines 362-373): walk the candidate list, wait
2000 ms on each, return the first locator that resolves, else null. -/
def tryStrategies (page : Page) : List String → EngineState →
    Option String × EngineState
  | [], st => (none, st)
  | c :: rest, st =>
    let st := recordAttempt c heuristicTimeoutMs Phase.heuristic st
    if page.waitForOk c heuristicTimeoutMs then (some c, st)
    else tryStrategies page rest st

/-- The fallback loop of `findElement` (source lines 70-84): each fallback
selector is tried with a 3000 ms wait; the first success appends a HEALED
log entry and short-circuits; each failure logs a console diagnostic with
the 1-based index. -/
def tryFallbacks (page : Page) (cfg : SelfHealingConfig)
    (primary description : String) :
    List String → Nat → EngineState → Option String × EngineState
  | [], _, st => (none, st)
  | fb :: rest, i, st =>
    let st := recordAttempt fb fallbackTimeoutMs Phase.fallback st
    if page.waitForOk fb fallbackTimeoutMs then
      let st := logHealing cfg primary fb description false st
      (some fb, st)
    else
      let st := consoleLog cfg
        ("❌ Fallback " ++ toString (i + 1) ++ " failed: " ++ fb) st
      tryFallbacks page cfg primary description rest (i + 1) st

/-- `findElement` (source lines 50-103).  A returned locator is identified
by its selector expression.  `Except.ok none` is the explicit not-found
result (`return null`); `Except.error ()` models an exception escaping the
function — which in the source can only come from the unguarded
`page.screenshot` call on the total-failure path (lines 94-99). -/
def findElement (page : Page) (cfg : SelfHealingConfig)
    (s : SelectorStrategy) (st : EngineState) :
    Except Unit (Option String) × EngineState :=
  let st := recordAttempt s.primary primaryTimeoutMs Phase.primary st
  if page.waitForOk s.primary primaryTimeoutMs then
    let st := consoleLog cfg
      ("✅ Primary selector worked: " ++ s.primary ++ " (" ++ s.description ++ ")") st
    (Except.ok (some s.primary), st)
  else
    let st := consoleLog cfg
      ("❌ Primary selector failed: " ++ s.primary ++ " (" ++ s.description ++ ")") st
    match tryFallbacks page cfg s.primary s.description s.fallbacks 0 st with
    | (some fb, st) => (Except.ok (some fb), st)
    | (none, st) =>
      match tryStrategies page
          (intelligentCandidates s.elementType (jsToLower s.description)) st with
      | (some c, st) =>
        let st := logHealing cfg s.primary "intelligent-fallback" s.description
          false st
        (Except.ok (some c), st)
      | (none, st) =>
        if cfg.screenshotOnFailure then
          if page.screenshotOk then
            let st := { st with screenshots := st.screenshots + 1 }
            let st := logHealing cfg s.primary "FAILED" s.description true st
            (Except.ok none, st)
          else
            (Except.error (), st)
        else
          let st := logHealing cfg s.primary "FAILED" s.description true st
          (Except.ok none, st)

/-- Whether an `Except` outcome is a success. -/
def exceptOk {ε α : Type} : Except ε α → Bool
  | Except.ok _ => true
  | Except.error _ => false

/-- The loop body of `retryOperation` (source lines 381-395), written as
structural recursion on the number of remaining attempts.  Returns the
final outcome, the number of times the operation was invoked, and the
list of backoff delays waited between consecutive attempts.  `op k` is the
outcome of the k-th (1-indexed) invocation. -/
def retryLoop {ε α : Type} [Inhabited ε] (retryDelay : Nat)
    (op : Nat → Except ε α) (attempt : Nat) :
    Nat → Except ε α × Nat × List Nat
  | 0 => (Except.error default, 0, [])
  | remaining + 1 =>
    if exceptOk (op attempt) then (op attempt, 1, [])
    else if remaining = 0 then (op attempt, 1, [])
    else
      let r := retryLoop retryDelay op (attempt + 1) remaining
      (r.1, r.2.1 + 1, retryDelay * 2 ^ (attempt - 1) :: r.2.2)

/-- `retryOperation` (source lines 378-398): invoke `op`, and on failure
wait `retryDelay * 2 ^ (attempt - 1)` ms and retry, up to `maxRetries`
invocations total; on exhaustion rethrow the last failure. -/
def retryOperation {ε α : Type} [Inhabited ε] (cfg : SelfHealingConfig)
    (op : Nat → Except ε α) : Except ε α × Nat × List Nat :=
  retryLoop cfg.retryDelay op 1 cfg.maxRetries

/-- The operation retried by `click` (source lines 117-119):
`element.click()` on the k-th attempt. -/
def clickOp (page : Page) : Nat → Except Unit Unit :=
  fun k => if page.clickOk k then Except.ok () else Except.error ()

/-- The operation retried by `fill` (source lines 152-155):
`element.clear(); element.fill(value)` on the k-th attempt. -/
def clearFillOp (page : Page) : Nat → Except Unit Unit :=
  fun k => if page.clearFillOk k then Except.ok () else Except.error ()

/-- `click` (source lines 108-139): resolve, return false on resolution
failure; standard click under `retryOperation`; on exhaustion escalate to
a forced click, then to a script-level click, logging each successful
escalation; return false when every tactic fails.  An exception escaping
`findElement` propagates. -/
def click (page : Page) (cfg : SelfHealingConfig) (s : SelectorStrategy)
    (st : EngineState) : Except Unit Bool × EngineState :=
  match findElement page cfg s st with
  | (Except.error e, st) => (Except.error e, st)
  | (Except.ok none, st) => (Except.ok false, st)
  | (Except.ok (some _), st) =>
    let (r, _, ds) := retryOperation cfg (clickOp page)
    let st := { st with delays := st.delays ++ ds }
    match r with
    | Except.ok _ => (Except.ok true, st)
    | Except.error _ =>
      if page.forceClickOk then
        let st := logHealing cfg s.primary "force-click" s.description false st
        (Except.ok true, st)
      else if page.jsClickOk then
        let st := logHealing cfg s.primary "js-click" s.description false st
        (Except.ok true, st)
      else
        (Except.ok false, st)

/-- `fill` (source lines 144-181): resolve, return false on resolution
failure; clear-and-fill under `retryOperation`; on exhaustion escalate to
click + select-all + keyboard typing, then to script-level value
assignment with input/change event dispatch, logging each successful
escalation; return false when every tactic fails. -/
def fill (page : Page) (cfg : SelfHealingConfig) (s : SelectorStrategy)
    (st : EngineState) : Except Unit Bool × EngineState :=
  match findElement page cfg s st with
  | (Except.error e, st) => (Except.error e, st)
  | (Except.ok none, st) => (Except.ok false, st)
  | (Except.ok (some _), st) =>
    let (r, _, ds) := retryOperation cfg (clearFillOp page)
    let st := { st with delays := st.delays ++ ds }
    match r with
    | Except.ok _ => (Except.ok true, st)
    | Except.error _ =>
      if page.keyboardFillOk then
        let st := logHealing cfg s.primary "keyboard-fill" s.description false st
        (Except.ok true, st)
      else if page.jsFillOk then
        let st := logHealing cfg s.primary "js-fill" s.description false st
        (Except.ok true, st)
      else
        (Except.ok false, st)

/-- `getText` (source lines 186-207): resolve, return null on resolution
failure; try `textContent()`, then `innerText()`, then a script-level
`textContent` read; return null when every extraction tactic fails.  No
tactic appends a healing-log entry. -/
def getText (page : Page) (cfg : SelfHealingConfig) (s : SelectorStrategy)
    (st : EngineState) : Except Unit (Option String) × EngineState :=
  match findElement page cfg s st with
  | (Except.error e, st) => (Except.error e, st)
  | (Except.ok none, st) => (Except.ok none, st)
  | (Except.ok (some _), st) =>
    match page.textContentR with
    | Except.ok t => (Except.ok t, st)
    | Except.error _ =>
      match page.innerTextR with
      | Except.ok t => (Except.ok (some t), st)
      | Except.error _ =>
        match page.evalTextR with
        | Except.ok t => (Except.ok t, st)
        | Except.error _ => (Except.ok none, st)

/-- `getHealingLog` (source lines 418-420): a read-only snapshot copy of
the private log array. -/
def getHealingLog (st : EngineState) : List String := st.healingLog

/-- `clearLog` (source lines 443-445). -/
def clearLog (st : EngineState) : EngineState := { st with healingLog := [] }

/-- The report object built by `exportHealingReport` (source lines
426-431): exactly the four fields of the object literal. -/
structure HealingReport where
  timestamp : String
  totalHealingAttempts : Nat
  healingLog : List String
  config : SelfHealingConfig
  deriving DecidableEq, Repr

/-- `exportHealingReport` (source lines 425-438): build the report object
and write it to disk with `fs.writeFile` — the write is NOT wrapped in any
try/catch, so a write failure escapes as `Except.error ()`.
`SelfHealingBasePage.exportHealingReport` only awaits this call, adding no
handler either. -/
def exportHealingReport (page : Page) (cfg : SelfHealingConfig)
    (st : EngineState) : Except Unit HealingReport × EngineState :=
  let ts := st.tsSupply.headD ""
  let report : HealingReport :=
    { timestamp := ts, totalHealingAttempts := st.healingLog.length,
      healingLog := st.healingLog, config := cfg }
  let st := { st with tsSupply := st.tsSupply.tail }
  if page.writeFileOk then (Except.ok report, st) else (Except.error (), st)

/-- The non-console part of an `EngineState`: everything except the
console output.  Used to state that `enableLogging` influences console
output only. -/
structure CoreState where
  healingLog : List String
  attempts : List Attempt
  screenshots : Nat
  delays : List Nat
  tsSupply : List String
  deriving DecidableEq, Repr

/-- Project the non-console components of a state. -/
def EngineState.core (st : EngineState) : CoreState :=
  ⟨st.healingLog, st.attempts, st.screenshots, st.delays, st.tsSupply⟩

/-- The attempt record of the primary tier. -/
def primAtt (sel : String) : Attempt := ⟨sel, primaryTimeoutMs, Phase.primary⟩

/-- The attempt record of the fallback tier. -/
def fbAtt (sel : String) : Attempt := ⟨sel, fallbackTimeoutMs, Phase.fallback⟩

/-- The attempt record of the heuristic tier. -/
def heurAtt (sel : String) : Attempt := ⟨sel, heuristicTimeoutMs, Phase.heuristic⟩

/-- A page oracle whose locate outcomes are given by `wf` and whose action
primitives all succeed; concrete instances serve as test pages. -/
def mkPage (wf : String → Nat → Bool) : Page :=
  { waitForOk := wf, screenshotOk := true, clickOk := fun _ => true,
    forceClickOk := true, jsClickOk := true, clearFillOk := fun _ => true,
    keyboardFillOk := true, jsFillOk := true,
    textContentR := Except.ok (some "t"), innerTextR := Except.ok "t",
    evalTextR := Except.ok (some "t"), writeFileOk := true }

lemma consoleLog_core (cfg : SelfHealingConfig) (m : String)
    (st : EngineState) : (consoleLog cfg m st).core = st.core := by
  unfold consoleLog
  by_cases h : cfg.enableLogging <;> simp [h, EngineState.core]

lemma logHealing_core (cfg : SelfHealingConfig) (o hs d : String) (f : Bool)
    (st : EngineState) :
    (logHealing cfg o hs d f st).core =
      ⟨st.healingLog ++ [logEntryStr (st.tsSupply.headD "") f d o hs],
       st.attempts, st.screenshots, st.delays, st.tsSupply.tail⟩ := by
  simp [logHealing, EngineState.core]

lemma recordAttempt_core (sel : String) (t : Nat) (ph : Phase)
    (st : EngineState) :
    (recordAttempt sel t ph st).core =
      ⟨st.healingLog, st.attempts ++ [⟨sel, t, ph⟩], st.screenshots,
       st.delays, st.tsSupply⟩ := by
  simp [recordAttempt, EngineState.core]

@[simp] lemma consoleLog_healingLog (cfg m st) :
    (consoleLog cfg m st).healingLog = st.healingLog := by
  unfold consoleLog; by_cases h : cfg.enableLogging <;> simp [h]

@[simp] lemma consoleLog_attempts (cfg m st) :
    (consoleLog cfg m st).attempts = st.attempts := by
  unfold consoleLog; by_cases h : cfg.enableLogging <;> simp [h]

@[simp] lemma consoleLog_screenshots (cfg m st) :
    (consoleLog cfg m st).screenshots = st.screenshots := by
  unfold consoleLog; by_cases h : cfg.enableLogging <;> simp [h]

@[simp] lemma consoleLog_delays (cfg m st) :
    (consoleLog cfg m st).delays = st.delays := by
  unfold consoleLog; by_cases h : cfg.enableLogging <;> simp [h]

@[simp] lemma consoleLog_tsSupply (cfg m st) :
    (consoleLog cfg m st).tsSupply = st.tsSupply := by
  unfold consoleLog; by_cases h : cfg.enableLogging <;> simp [h]

@[simp] lemma recordAttempt_healingLog (sel t ph st) :
    (recordAttempt sel t ph st).healingLog = st.healingLog := rfl

@[simp] lemma recordAttempt_attempts (sel t ph st) :
    (recordAttempt sel t ph st).attempts = st.attempts ++ [⟨sel, t, ph⟩] := rfl

@[simp] lemma recordAttempt_screenshots (sel t ph st) :
    (recordAttempt sel t ph st).screenshots = st.screenshots := rfl

@[simp] lemma recordAttempt_delays (sel t ph st) :
    (recordAttempt sel t ph st).delays = st.delays := rfl

@[simp] lemma recordAttempt_tsSupply (sel t ph st) :
    (recordAttempt sel t ph st).tsSupply = st.tsSupply := rfl

@[simp] lemma logHealing_healingLog (cfg o hs d f st) :
    (logHealing cfg o hs d f st).healingLog =
      st.healingLog ++ [logEntryStr (st.tsSupply.headD "") f d o hs] := rfl

@[simp] lemma logHealing_attempts (cfg o hs d f st) :
    (logHealing cfg o hs d f st).attempts = st.attempts := rfl

@[simp] lemma logHealing_screenshots (cfg o hs d f st) :
    (logHealing cfg o hs d f st).screenshots = st.screenshots := rfl

@[simp] lemma logHealing_delays (cfg o hs d f st) :
    (logHealing cfg o hs d f st).delays = st.delays := rfl

@[simp] lemma logHealing_tsSupply (cfg o hs d f st) :
    (logHealing cfg o hs d f st).tsSupply = st.tsSupply.tail := rfl

lemma tryStrategies_all_fail (page : Page) :
    ∀ (l : List String) (st : EngineState),
      (∀ c ∈ l, page.waitForOk c heuristicTimeoutMs = false) →
      (tryStrategies page l st).1 = none ∧
      (tryStrategies page l st).2.core =
        ⟨st.healingLog, st.attempts ++ l.map heurAtt, st.screenshots,
         st.delays, st.tsSupply⟩
  | [], st, _ => by simp [tryStrategies, EngineState.core]
  | c :: rest, st, h => by
    have hc : page.waitForOk c heuristicTimeoutMs = false := h c (by simp)
    have ih := tryStrategies_all_fail page rest
      (recordAttempt c heuristicTimeoutMs Phase.heuristic st)
      (fun x hx => h x (List.mem_cons_of_mem _ hx))
    simp [tryStrategies, hc, recordAttempt, EngineState.core, heurAtt] at ih ⊢
    exact ih

lemma tryStrategies_none_iff (page : Page) :
    ∀ (l : List String) (st : EngineState),
      (tryStrategies page l st).1 = none ↔
        ∀ c ∈ l, page.waitForOk c heuristicTimeoutMs = false
  | [], st => by simp [tryStrategies]
  | c :: rest, st => by
    by_cases hc : page.waitForOk c heuristicTimeoutMs
    · simp [tryStrategies, hc]
    · simp only [Bool.not_eq_true] at hc
      simp [tryStrategies, hc,
        tryStrategies_none_iff page rest
          (recordAttempt c heuristicTimeoutMs Phase.heuristic st)]

lemma tryFallbacks_all_fail (page : Page) (cfg : SelfHealingConfig)
    (p d : String) :
    ∀ (l : List String) (k : Nat) (st : EngineState),
      (∀ fb ∈ l, page.waitForOk fb fallbackTimeoutMs = false) →
      (tryFallbacks page cfg p d l k st).1 = none ∧
      (tryFallbacks page cfg p d l k st).2.core =
        ⟨st.healingLog, st.attempts ++ l.map fbAtt, st.screenshots,
         st.delays, st.tsSupply⟩
  | [], k, st, _ => by simp [tryFallbacks, EngineState.core]
  | fb :: rest, k, st, h => by
    have hfb : page.waitForOk fb fallbackTimeoutMs = false := h fb (by simp)
    have ih := tryFallbacks_all_fail page cfg p d rest (k + 1)
      (consoleLog cfg ("❌ Fallback " ++ toString (k + 1) ++ " failed: " ++ fb)
        (recordAttempt fb fallbackTimeoutMs Phase.fallback st))
      (fun x hx => h x (List.mem_cons_of_mem _ hx))
    simp [tryFallbacks, hfb, EngineState.core, fbAtt] at ih ⊢
    exact ih

lemma tryFallbacks_none_iff (page : Page) (cfg : SelfHealingConfig)
    (p d : String) :
    ∀ (l : List String) (k : Nat) (st : EngineState),
      (tryFallbacks page cfg p d l k st).1 = none ↔
        ∀ fb ∈ l, page.waitForOk fb fallbackTimeoutMs = false
  | [], k, st => by simp [tryFallbacks]
  | fb :: rest, k, st => by
    by_cases hfb : page.waitForOk fb fallbackTimeoutMs
    · simp [tryFallbacks, hfb]
    · simp only [Bool.not_eq_true] at hfb
      simp [tryFallbacks, hfb, tryFallbacks_none_iff page cfg p d rest (k + 1)]

lemma tryFallbacks_first_success (page : Page) (cfg : SelfHealingConfig)
    (p d : String) :
    ∀ (l : List String) (i k : Nat) (st : EngineState),
      i < l.length →
      (∀ j, j < i → page.waitForOk (l.getD j "") fallbackTimeoutMs = false) →
      page.waitForOk (l.getD i "") fallbackTimeoutMs = true →
      (tryFallbacks page cfg p d l k st).1 = some (l.getD i "") ∧
      (tryFallbacks page cfg p d l k st).2.core =
        ⟨st.healingLog ++
           [logEntryStr (st.tsSupply.headD "") false d p (l.getD i "")],
         st.attempts ++ (l.take (i + 1)).map fbAtt, st.screenshots,
         st.delays, st.tsSupply.tail⟩
  | [], i, k, st, hi, _, _ => by simp at hi
  | fb :: rest, 0, k, st, hi, hbefore, hit => by
    simp only [List.getD_cons_zero] at hit
    simp [tryFallbacks, hit, EngineState.core, fbAtt]
  | fb :: rest, i + 1, k, st, hi, hbefore, hit => by
    have hfb : page.waitForOk fb fallbackTimeoutMs = false := by
      have := hbefore 0 (Nat.succ_pos i)
      simpa using this
    have ih := tryFallbacks_first_success page cfg p d rest i (k + 1)
      (consoleLog cfg ("❌ Fallback " ++ toString (k + 1) ++ " failed: " ++ fb)
        (recordAttempt fb fallbackTimeoutMs Phase.fallback st))
      (Nat.lt_of_succ_lt_succ hi)
      (fun j hj => by
        have := hbefore (j + 1) (Nat.succ_lt_succ hj)
        simpa using this)
      (by simpa using hit)
    simp [tryFallbacks, hfb, EngineState.core, fbAtt] at ih ⊢
    exact ih

/-- C2: if the primary selector succeeds, `findElement` returns the
primary locator, issues no fallback or heuristic attempt (the attempt
trace grows by exactly the primary attempt), appends nothing to the
healing log, and captures no screenshot. -/
theorem findElement_primary_success (page : Page) (cfg : SelfHealingConfig)
    (s : SelectorStrategy) (st : EngineState)
    (h : page.waitForOk s.primary primaryTimeoutMs = true) :
    (findElement page cfg s st).1 = Except.ok (some s.primary) ∧
    (findElement page cfg s st).2.healingLog = st.healingLog ∧
    (findElement page cfg s st).2.attempts = st.attempts ++ [primAtt s.primary] ∧
    (findElement page cfg s st).2.screenshots = st.screenshots := by
  simp [findElement, h, primAtt]

/-- Closed witness for `findElement_primary_success` at a concrete page,
strategy and state. -/
theorem findElement_primary_success_witness :
    (mkPage (fun sel _ => sel == "#ok")).waitForOk "#ok" primaryTimeoutMs
        = true ∧
    (findElement (mkPage (fun sel _ => sel == "#ok")) defaultConfig
        ⟨"#ok", ["#fb"], "login button", ElementType.button⟩
        (initState ["T0"])).1 = Except.ok (some "#ok") :=
  ⟨by decide,
   (findElement_primary_success (mkPage (fun sel _ => sel == "#ok"))
      defaultConfig ⟨"#ok", ["#fb"], "login button", ElementType.button⟩
      (initState ["T0"]) (by decide)).1⟩

/-- C1: if the primary selector fails, the fallbacks at positions before
`i` fail, and the fallback at position `i` succeeds, then `findElement`
returns the locator of `fallbacks[i]`, the attempt trace grows by exactly
the primary attempt followed by the fallback attempts in listed order up
to position `i`, and no heuristic candidate is attempted. -/
theorem findElement_fallback_order (page : Page) (cfg : SelfHealingConfig)
    (s : SelectorStrategy) (st : EngineState) (i : Nat)
    (hp : page.waitForOk s.primary primaryTimeoutMs = false)
    (hi : i < s.fallbacks.length)
    (hbefore : ∀ j, j < i →
      page.waitForOk (s.fallbacks.getD j "") fallbackTimeoutMs = false)
    (hit : page.waitForOk (s.fallbacks.getD i "") fallbackTimeoutMs = true) :
    (findElement page cfg s st).1 = Except.ok (some (s.fallbacks.getD i "")) ∧
    (findElement page cfg s st).2.attempts =
      st.attempts ++ primAtt s.primary :: (s.fallbacks.take (i + 1)).map fbAtt ∧
    (∀ a ∈ (findElement page cfg s st).2.attempts,
      a.phase = Phase.heuristic → a ∈ st.attempts) := by
  have hmain := tryFallbacks_first_success page cfg s.primary s.description
    s.fallbacks i 0
    (consoleLog cfg
      ("❌ Primary selector failed: " ++ s.primary ++ " (" ++ s.description ++ ")")
      (recordAttempt s.primary primaryTimeoutMs Phase.primary st))
    hi hbefore hit
  rcases hpair : tryFallbacks page cfg s.primary s.description s.fallbacks 0
      (consoleLog cfg
        ("❌ Primary selector failed: " ++ s.primary ++ " (" ++ s.description ++ ")")
        (recordAttempt s.primary primaryTimeoutMs Phase.primary st))
    with ⟨r, st₂⟩
  rw [hpair] at hmain
  obtain ⟨hr, hcore⟩ := hmain
  simp only at hr hcore
  subst hr
  simp only [EngineState.core, CoreState.mk.injEq] at hcore
  obtain ⟨hlog, hatt, hshots, hdel, hts⟩ := hcore
  simp only [consoleLog_attempts, recordAttempt_attempts, List.append_assoc,
    List.singleton_append] at hatt
  refine ⟨?_, ?_, ?_⟩
  · simp [findElement, hp, hpair]
  · simp [findElement, hp, hpair, hatt, primAtt]
  · intro a ha hph
    simp only [findElement, hp, Bool.false_eq_true, if_false, hpair] at ha
    simp only [hatt] at ha
    rcases List.mem_append.1 ha with hin | hin
    · exact hin
    · rcases List.mem_cons.1 hin with rfl | hin
      · simp [primAtt] at hph
      · obtain ⟨c, _, rfl⟩ := List.mem_map.1 hin
        simp [fbAtt] at hph

/-- Closed witness for `findElement_fallback_order`: primary `#p` fails,
fallback `#f1` fails, fallback `#f2` (position 1) succeeds. -/
theorem findElement_fallback_order_witness :
    (findElement (mkPage (fun sel _ => sel == "#f2")) defaultConfig
        ⟨"#p", ["#f1", "#f2"], "login button", ElementType.button⟩
        (initState ["T0"])).1 = Except.ok (some "#f2") :=
  (findElement_fallback_order (mkPage (fun sel _ => sel == "#f2"))
    defaultConfig ⟨"#p", ["#f1", "#f2"], "login button", ElementType.button⟩
    (initState ["T0"]) 1 (by decide) (by decide)
    (by intro j hj; interval_cases j; decide) (by decide)).1

/-- C3: if the primary selector, every fallback and every heuristic
candidate fail (and the screenshot primitive itself works when it is
needed), `findElement` returns the explicit not-found value `null`,
appends exactly one FAILED entry to the healing log, and captures a
screenshot iff `screenshotOnFailure` is set. -/
theorem findElement_total_failure (page : Page) (cfg : SelfHealingConfig)
    (s : SelectorStrategy) (st : EngineState)
    (hp : page.waitForOk s.primary primaryTimeoutMs = false)
    (hfb : ∀ fb ∈ s.fallbacks, page.waitForOk fb fallbackTimeoutMs = false)
    (hheu : ∀ c ∈ intelligentCandidates s.elementType (jsToLower s.description),
      page.waitForOk c heuristicTimeoutMs = false)
    (hshot : cfg.screenshotOnFailure = true → page.screenshotOk = true) :
    (findElement page cfg s st).1 = Except.ok none ∧
    (findElement page cfg s st).2.healingLog = st.healingLog ++
      [logEntryStr (st.tsSupply.headD "") true s.description s.primary "FAILED"] ∧
    ((findElement page cfg s st).2.screenshots = st.screenshots + 1 ↔
      cfg.screenshotOnFailure = true) := by
  have hfbmain := tryFallbacks_all_fail page cfg s.primary s.description
    s.fallbacks 0
    (consoleLog cfg
      ("❌ Primary selector failed: " ++ s.primary ++ " (" ++ s.description ++ ")")
      (recordAttempt s.primary primaryTimeoutMs Phase.primary st))
    hfb
  rcases hpair : tryFallbacks page cfg s.primary s.description s.fallbacks 0
      (consoleLog cfg
        ("❌ Primary selector failed: " ++ s.primary ++ " (" ++ s.description ++ ")")
        (recordAttempt s.primary primaryTimeoutMs Phase.primary st))
    with ⟨r, st₂⟩
  rw [hpair] at hfbmain
  obtain ⟨hr, hcore⟩ := hfbmain
  simp only at hr hcore
  subst hr
  simp only [EngineState.core, CoreState.mk.injEq] at hcore
  obtain ⟨hlog₂, hatt₂, hshots₂, hdel₂, hts₂⟩ := hcore
  have hheumain := tryStrategies_all_fail page
    (intelligentCandidates s.elementType (jsToLower s.description)) st₂ hheu
  rcases hpair₂ : tryStrategies page
      (intelligentCandidates s.elementType (jsToLower s.description)) st₂
    with ⟨r₂, st₃⟩
  rw [hpair₂] at hheumain
  obtain ⟨hr₂, hcore₂⟩ := hheumain
  simp only at hr₂ hcore₂
  subst hr₂
  simp only [EngineState.core, CoreState.mk.injEq] at hcore₂
  obtain ⟨hlog₃, hatt₃, hshots₃, hdel₃, hts₃⟩ := hcore₂
  simp only [consoleLog_healingLog, recordAttempt_healingLog,
    consoleLog_tsSupply, recordAttempt_tsSupply, consoleLog_screenshots,
    recordAttempt_screenshots] at hlog₂ hts₂ hshots₂
  by_cases hsf : cfg.screenshotOnFailure
  · have hok : page.screenshotOk = true := hshot hsf
    refine ⟨?_, ?_, ?_⟩
    · simp [findElement, hp, hpair, hpair₂, hsf, hok]
    · simp [findElement, hp, hpair, hpair₂, hsf, hok, hlog₃, hlog₂, hts₃, hts₂]
    · simp [findElement, hp, hpair, hpair₂, hsf, hok, hshots₃, hshots₂]
  · simp only [Bool.not_eq_true] at hsf
    refine ⟨?_, ?_, ?_⟩
    · simp [findElement, hp, hpair, hpair₂, hsf]
    · simp [findElement, hp, hpair, hpair₂, hsf, hlog₃, hlog₂, hts₃, hts₂]
    · simp [findElement, hp, hpair, hpair₂, hsf, hshots₃, hshots₂]

/-- Closed witness for `findElement_total_failure`: every selector fails on
an empty page with a working screenshot primitive and
`screenshotOnFailure` enabled. -/
theorem findElement_total_failure_witness :
    (findElement (mkPage (fun _ _ => false)) defaultConfig
        ⟨"#p", ["#f1"], "username field", ElementType.input⟩
        (initState ["T0"])).1 = Except.ok none ∧
    (findElement (mkPage (fun _ _ => false)) defaultConfig
        ⟨"#p", ["#f1"], "username field", ElementType.input⟩
        (initState ["T0"])).2.healingLog =
      ["T0 - ❌ FAILED - username field: #p → FAILED"] :=
  ⟨(findElement_total_failure (mkPage (fun _ _ => false)) defaultConfig
      ⟨"#p", ["#f1"], "username field", ElementType.input⟩ (initState ["T0"])
      (by decide) (by decide) (by decide) (fun _ => rfl)).1,
   (findElement_total_failure (mkPage (fun _ _ => false)) defaultConfig
      ⟨"#p", ["#f1"], "username field", ElementType.input⟩ (initState ["T0"])
      (by decide) (by decide) (by decide) (fun _ => rfl)).2.1⟩

/-- C6 counterexample: on a page where every selector fails and the
screenshot primitive itself fails, with `screenshotOnFailure` enabled
(the default), `findElement` propagates the screenshot exception instead
of returning the not-found value — so `findElement` is not
exception-free. -/
theorem findElement_throws_counterexample :
    (findElement
        { mkPage (fun _ _ => false) with screenshotOk := false }
        defaultConfig ⟨"#p", [], "x", ElementType.link⟩
        (initState ["T0"])).1 = Except.error () ∧
    (findElement
        { mkPage (fun _ _ => false) with screenshotOk := false }
        defaultConfig ⟨"#p", [], "x", ElementType.link⟩
        (initState ["T0"])).2.healingLog = [] :=
  ⟨rfl, rfl⟩

/-- C6 amended: `findElement` throws exactly when resolution fails
totally, `screenshotOnFailure` is enabled, and the failure-path screenshot
capture itself fails; in every other situation (in particular whenever the
screenshot primitive works or is not invoked) it returns a value rather
than throwing. -/
theorem findElement_error_iff (page : Page) (cfg : SelfHealingConfig)
    (s : SelectorStrategy) (st : EngineState) :
    (findElement page cfg s st).1 = Except.error () ↔
      (page.waitForOk s.primary primaryTimeoutMs = false ∧
       (∀ fb ∈ s.fallbacks, page.waitForOk fb fallbackTimeoutMs = false) ∧
       (∀ c ∈ intelligentCandidates s.elementType (jsToLower s.description),
         page.waitForOk c heuristicTimeoutMs = false) ∧
       cfg.screenshotOnFailure = true ∧ page.screenshotOk = false) := by
  by_cases hp : page.waitForOk s.primary primaryTimeoutMs
  · simp [findElement, hp]
  · simp only [Bool.not_eq_true] at hp
    rcases hpair : tryFallbacks page cfg s.primary s.description s.fallbacks 0
        (consoleLog cfg
          ("❌ Primary selector failed: " ++ s.primary ++ " (" ++ s.description ++ ")")
          (recordAttempt s.primary primaryTimeoutMs Phase.primary st))
      with ⟨r, st₂⟩
    cases r with
    | some fb =>
      constructor
      · intro hl
        simp [findElement, hp, hpair] at hl
      · rintro ⟨-, hfb, -, -, -⟩
        have := (tryFallbacks_none_iff page cfg s.primary s.description
          s.fallbacks 0 (consoleLog cfg
            ("❌ Primary selector failed: " ++ s.primary ++ " (" ++ s.description ++ ")")
            (recordAttempt s.primary primaryTimeoutMs Phase.primary st))).2 hfb
        rw [hpair] at this
        simp at this
    | none =>
      have hfb : ∀ fb ∈ s.fallbacks,
          page.waitForOk fb fallbackTimeoutMs = false := by
        have := (tryFallbacks_none_iff page cfg s.primary s.description
          s.fallbacks 0 (consoleLog cfg
            ("❌ Primary selector failed: " ++ s.primary ++ " (" ++ s.description ++ ")")
            (recordAttempt s.primary primaryTimeoutMs Phase.primary st))).1
        rw [hpair] at this
        exact this rfl
      rcases hpair₂ : tryStrategies page
          (intelligentCandidates s.elementType (jsToLower s.description)) st₂
        with ⟨r₂, st₃⟩
      cases r₂ with
      | some c =>
        constructor
        · intro hl
          simp [findElement, hp, hpair, hpair₂] at hl
        · rintro ⟨-, -, hheu, -, -⟩
          have := (tryStrategies_none_iff page
            (intelligentCandidates s.elementType (jsToLower s.description))
            st₂).2 hheu
          rw [hpair₂] at this
          simp at this
      | none =>
        have hheu : ∀ c ∈ intelligentCandidates s.elementType
            (jsToLower s.description),
            page.waitForOk c heuristicTimeoutMs = false := by
          have := (tryStrategies_none_iff page
            (intelligentCandidates s.elementType (jsToLower s.description))
            st₂).1
          rw [hpair₂] at this
          exact this rfl
        by_cases hsf : cfg.screenshotOnFailure
        · by_cases hok : page.screenshotOk
          · simp [findElement, hp, hpair, hpair₂, hsf, hok, hfb, hheu]
          · simp only [Bool.not_eq_true] at hok
            have hl : (findElement page cfg s st).1 = Except.error () := by
              simp [findElement, hp, hpair, hpair₂, hsf, hok]
            rw [hl]
            exact iff_of_true rfl ⟨hp, hfb, hheu, hsf, hok⟩
        · simp only [Bool.not_eq_true] at hsf
          simp [findElement, hp, hpair, hpair₂, hsf, hfb, hheu]

/-- C5 counterexample: when the filesystem write fails, the report export
throws to its caller — the write is not wrapped in any handler, so the
failure is not absorbed. -/
theorem exportHealingReport_throws_counterexample :
    (exportHealingReport
        { mkPage (fun _ _ => false) with writeFileOk := false }
        defaultConfig (initState ["T0"])).1 = Except.error () := rfl

/-- C5 amended: `exportHealingReport` propagates a filesystem write
failure to its caller; it completes without throwing exactly when the
write succeeds. -/
theorem exportHealingReport_error_iff (page : Page) (cfg : SelfHealingConfig)
    (st : EngineState) :
    (exportHealingReport page cfg st).1 = Except.error () ↔
      page.writeFileOk = false := by
  by_cases h : page.writeFileOk
  · simp [exportHealingReport, h]
  · simp only [Bool.not_eq_true] at h
    simp [exportHealingReport, h]

/-- C9 counterexample: the entry appended by `logHealing` carries the
emoji-prefixed status `🔧 HEALED` (resp. `❌ FAILED`), so its status field
is not exactly `HEALED`/`FAILED` as the claimed entry format states: the
produced entry differs from both strings the claimed format allows. -/
theorem logEntry_status_counterexample :
    (logHealing defaultConfig "#a" "#b" "d" false
        (initState ["T0"])).healingLog = ["T0 - 🔧 HEALED - d: #a → #b"] ∧
    "T0 - 🔧 HEALED - d: #a → #b" ≠ "T0 - HEALED - d: #a → #b" ∧
    "T0 - 🔧 HEALED - d: #a → #b" ≠ "T0 - FAILED - d: #a → #b" :=
  ⟨rfl, by decide, by decide⟩

/-- C9 amended: the report object has exactly the fields `timestamp` (the
clock reading at export time), `totalHealingAttempts` (equal to the number
of log entries), `healingLog` (the accumulated entry strings) and `config`
(the active configuration); every log entry is formatted as
`ts - status - description: original → resolved` where the status is the
emoji-prefixed `🔧 HEALED` or `❌ FAILED`. -/
theorem exportHealingReport_format (page : Page) (cfg : SelfHealingConfig)
    (st : EngineState) (r : HealingReport) (st' : EngineState)
    (hw : exportHealingReport page cfg st = (Except.ok r, st')) :
    r.totalHealingAttempts = r.healingLog.length ∧
    r.healingLog = st.healingLog ∧
    r.config = cfg ∧
    r.timestamp = st.tsSupply.headD "" ∧
    (∀ (cfg' : SelfHealingConfig) (o hs d : String) (f : Bool)
        (st₁ : EngineState),
      (logHealing cfg' o hs d f st₁).healingLog = st₁.healingLog ++
        [st₁.tsSupply.headD "" ++ " - " ++
          (if f then "❌ FAILED" else "🔧 HEALED") ++ " - " ++ d ++ ": " ++
          o ++ " → " ++ hs]) := by
  by_cases h : page.writeFileOk
  · simp only [exportHealingReport, h, if_true, Prod.mk.injEq,
      Except.ok.injEq] at hw
    obtain ⟨hr, -⟩ := hw
    subst hr
    refine ⟨by simp, rfl, rfl, rfl, ?_⟩
    intro cfg' o hs d f st₁
    simp [logHealing, logEntryStr]
  · simp only [Bool.not_eq_true] at h
    simp [exportHealingReport, h] at hw

/-- Closed witness for `exportHealingReport_format` on a concrete engine
state holding one healed entry. -/
theorem exportHealingReport_format_witness :
    exportHealingReport (mkPage (fun _ _ => false)) defaultConfig
        { initState ["T1"] with healingLog := ["e0"] } =
      (Except.ok ⟨"T1", 1, ["e0"], defaultConfig⟩,
       { initState [] with healingLog := ["e0"] }) ∧
    (⟨"T1", 1, ["e0"], defaultConfig⟩ : HealingReport).totalHealingAttempts =
      (⟨"T1", 1, ["e0"], defaultConfig⟩ : HealingReport).healingLog.length :=
  ⟨rfl,
   (exportHealingReport_format (mkPage (fun _ _ => false)) defaultConfig
      { initState ["T1"] with healingLog := ["e0"] }
      ⟨"T1", 1, ["e0"], defaultConfig⟩
      { initState [] with healingLog := ["e0"] } rfl).1⟩

lemma tryStrategies_attempt_mem (page : Page) :
    ∀ (l : List String) (st : EngineState) (a : Attempt),
      a ∈ (tryStrategies page l st).2.attempts →
      a ∈ st.attempts ∨
        (a.timeoutMs = heuristicTimeoutMs ∧ a.phase = Phase.heuristic)
  | [], st, a, h => by
    simp only [tryStrategies] at h
    exact Or.inl h
  | c :: rest, st, a, h => by
    by_cases hc : page.waitForOk c heuristicTimeoutMs
    · simp only [tryStrategies, hc, if_true, recordAttempt_attempts] at h
      rcases List.mem_append.1 h with h | h
      · exact Or.inl h
      · simp only [List.mem_singleton] at h
        subst h
        exact Or.inr ⟨rfl, rfl⟩
    · simp only [Bool.not_eq_true] at hc
      simp only [tryStrategies, hc, Bool.false_eq_true, if_false] at h
      rcases tryStrategies_attempt_mem page rest _ a h with h | h
      · simp only [recordAttempt_attempts] at h
        rcases List.mem_append.1 h with h | h
        · exact Or.inl h
        · simp only [List.mem_singleton] at h
          subst h
          exact Or.inr ⟨rfl, rfl⟩
      · exact Or.inr h

lemma tryFallbacks_attempt_mem (page : Page) (cfg : SelfHealingConfig)
    (p d : String) :
    ∀ (l : List String) (k : Nat) (st : EngineState) (a : Attempt),
      a ∈ (tryFallbacks page cfg p d l k st).2.attempts →
      a ∈ st.attempts ∨
        (a.timeoutMs = fallbackTimeoutMs ∧ a.phase = Phase.fallback)
  | [], k, st, a, h => by
    simp only [tryFallbacks] at h
    exact Or.inl h
  | fb :: rest, k, st, a, h => by
    by_cases hfb : page.waitForOk fb fallbackTimeoutMs
    · simp only [tryFallbacks, hfb, if_true, logHealing_attempts,
        recordAttempt_attempts] at h
      rcases List.mem_append.1 h with h | h
      · exact Or.inl h
      · simp only [List.mem_singleton] at h
        subst h
        exact Or.inr ⟨rfl, rfl⟩
    · simp only [Bool.not_eq_true] at hfb
      simp only [tryFallbacks, hfb, Bool.false_eq_true, if_false] at h
      rcases tryFallbacks_attempt_mem page cfg p d rest (k + 1) _ a h with h | h
      · simp only [consoleLog_attempts, recordAttempt_attempts] at h
        rcases List.mem_append.1 h with h | h
        · exact Or.inl h
        · simp only [List.mem_singleton] at h
          subst h
          exact Or.inr ⟨rfl, rfl⟩
      · exact Or.inr h

lemma findElement_attempt_mem (page : Page) (cfg : SelfHealingConfig)
    (s : SelectorStrategy) (st : EngineState) (a : Attempt)
    (ha : a ∈ (findElement page cfg s st).2.attempts) :
    a ∈ st.attempts ∨
      (a.timeoutMs = primaryTimeoutMs ∧ a.phase = Phase.primary) ∨
      (a.timeoutMs = fallbackTimeoutMs ∧ a.phase = Phase.fallback) ∨
      (a.timeoutMs = heuristicTimeoutMs ∧ a.phase = Phase.heuristic) := by
  have base : ∀ (st₀ : EngineState) (b : Attempt),
      b ∈ (recordAttempt s.primary primaryTimeoutMs Phase.primary st₀).attempts →
      b ∈ st₀.attempts ∨
        (b.timeoutMs = primaryTimeoutMs ∧ b.phase = Phase.primary) := by
    intro st₀ b h
    simp only [recordAttempt_attempts] at h
    rcases List.mem_append.1 h with h | h
    · exact Or.inl h
    · simp only [List.mem_singleton] at h
      subst h
      exact Or.inr ⟨rfl, rfl⟩
  by_cases hp : page.waitForOk s.primary primaryTimeoutMs
  · simp only [findElement, hp, if_true, consoleLog_attempts] at ha
    rcases base st a ha with h | h
    · exact Or.inl h
    · exact Or.inr (Or.inl h)
  · simp only [Bool.not_eq_true] at hp
    rcases hpair : tryFallbacks page cfg s.primary s.description s.fallbacks 0
        (consoleLog cfg
          ("❌ Primary selector failed: " ++ s.primary ++ " (" ++ s.description ++ ")")
          (recordAttempt s.primary primaryTimeoutMs Phase.primary st))
      with ⟨r, st₂⟩
    have hmem₂ : ∀ b : Attempt, b ∈ st₂.attempts →
        b ∈ st.attempts ∨
          (b.timeoutMs = primaryTimeoutMs ∧ b.phase = Phase.primary) ∨
          (b.timeoutMs = fallbackTimeoutMs ∧ b.phase = Phase.fallback) := by
      intro b hb
      have := tryFallbacks_attempt_mem page cfg s.primary s.description
        s.fallbacks 0 _ b (by rw [hpair]; exact hb)
      rcases this with h | h
      · simp only [consoleLog_attempts] at h
        rcases base st b h with h' | h'
        · exact Or.inl h'
        · exact Or.inr (Or.inl h')
      · exact Or.inr (Or.inr h)
    cases r with
    | some fb =>
      simp only [findElement, hp, Bool.false_eq_true, if_false, hpair] at ha
      rcases hmem₂ a ha with h | h | h
      · exact Or.inl h
      · exact Or.inr (Or.inl h)
      · exact Or.inr (Or.inr (Or.inl h))
    | none =>
      rcases hpair₂ : tryStrategies page
          (intelligentCandidates s.elementType (jsToLower s.description)) st₂
        with ⟨r₂, st₃⟩
      have hmem₃ : ∀ b : Attempt, b ∈ st₃.attempts →
          b ∈ st.attempts ∨
            (b.timeoutMs = primaryTimeoutMs ∧ b.phase = Phase.primary) ∨
            (b.timeoutMs = fallbackTimeoutMs ∧ b.phase = Phase.fallback) ∨
            (b.timeoutMs = heuristicTimeoutMs ∧ b.phase = Phase.heuristic) := by
        intro b hb
        have := tryStrategies_attempt_mem page
          (intelligentCandidates s.elementType (jsToLower s.description))
          st₂ b (by rw [hpair₂]; exact hb)
        rcases this with h | h
        · rcases hmem₂ b h with h' | h' | h'
          · exact Or.inl h'
          · exact Or.inr (Or.inl h')
          · exact Or.inr (Or.inr (Or.inl h'))
        · exact Or.inr (Or.inr (Or.inr h))
      cases r₂ with
      | some c =>
        simp only [findElement, hp, Bool.false_eq_true, if_false, hpair,
          hpair₂, logHealing_attempts] at ha
        exact hmem₃ a ha
      | none =>
        by_cases hsf : cfg.screenshotOnFailure
        · by_cases hok : page.screenshotOk
          · simp only [findElement, hp, Bool.false_eq_true, if_false, hpair,
              hpair₂, hsf, hok, if_true, logHealing_attempts] at ha
            exact hmem₃ a ha
          · simp only [Bool.not_eq_true] at hok
            simp only [findElement, hp, Bool.false_eq_true, if_false, hpair,
              hpair₂, hsf, hok, if_true] at ha
            exact hmem₃ a ha
        · simp only [Bool.not_eq_true] at hsf
          simp only [findElement, hp, Bool.false_eq_true, if_false, hpair,
            hpair₂, hsf, logHealing_attempts] at ha
          exact hmem₃ a ha

/-- C4 counterexample: a concrete `findElement` run whose trace contains
the primary attempt with its 5000 ms timeout and a fallback attempt with
its 3000 ms timeout — the fallback wait is not strictly longer than the
primary wait, contrary to the claim. -/
theorem timeout_tiers_counterexample :
    (findElement (mkPage (fun sel _ => sel == "#f")) defaultConfig
        ⟨"#p", ["#f"], "x", ElementType.link⟩ (initState ["T0"])).2.attempts =
      [⟨"#p", primaryTimeoutMs, Phase.primary⟩,
       ⟨"#f", fallbackTimeoutMs, Phase.fallback⟩] ∧
    ¬ fallbackTimeoutMs > primaryTimeoutMs :=
  ⟨rfl, by decide⟩

/-- C4 amended: every locate attempt issued by `findElement` uses the
fixed timeout of its tier, and the tiers are ordered the other way round
from the claim: the primary wait (5000 ms) is the longest, each fallback
wait (3000 ms) is strictly shorter than the primary wait, and each
heuristic wait (2000 ms) is the shortest. -/
theorem findElement_timeout_tiers (page : Page) (cfg : SelfHealingConfig)
    (s : SelectorStrategy) (st : EngineState) (a : Attempt)
    (ha : a ∈ (findElement page cfg s st).2.attempts)
    (hnew : a ∉ st.attempts) :
    ((a.phase = Phase.primary ∧ a.timeoutMs = primaryTimeoutMs) ∨
     (a.phase = Phase.fallback ∧ a.timeoutMs = fallbackTimeoutMs) ∨
     (a.phase = Phase.heuristic ∧ a.timeoutMs = heuristicTimeoutMs)) ∧
    heuristicTimeoutMs < fallbackTimeoutMs ∧
    fallbackTimeoutMs < primaryTimeoutMs := by
  rcases findElement_attempt_mem page cfg s st a ha with h | h | h | h
  · exact absurd h hnew
  · exact ⟨Or.inl ⟨h.2, h.1⟩, by decide, by decide⟩
  · exact ⟨Or.inr (Or.inl ⟨h.2, h.1⟩), by decide, by decide⟩
  · exact ⟨Or.inr (Or.inr ⟨h.2, h.1⟩), by decide, by decide⟩

/-- Closed witness for `findElement_timeout_tiers` at the fallback attempt
of a concrete run. -/
theorem findElement_timeout_tiers_witness :
    (⟨"#f", fallbackTimeoutMs, Phase.fallback⟩ : Attempt) ∈
      (findElement (mkPage (fun sel _ => sel == "#f")) defaultConfig
        ⟨"#p", ["#f"], "x", ElementType.link⟩ (initState ["T0"])).2.attempts ∧
    (((⟨"#f", fallbackTimeoutMs, Phase.fallback⟩ : Attempt).phase =
          Phase.primary ∧
        (⟨"#f", fallbackTimeoutMs, Phase.fallback⟩ : Attempt).timeoutMs =
          primaryTimeoutMs) ∨
     ((⟨"#f", fallbackTimeoutMs, Phase.fallback⟩ : Attempt).phase =
          Phase.fallback ∧
        (⟨"#f", fallbackTimeoutMs, Phase.fallback⟩ : Attempt).timeoutMs =
          fallbackTimeoutMs) ∨
     ((⟨"#f", fallbackTimeoutMs, Phase.fallback⟩ : Attempt).phase =
          Phase.heuristic ∧
        (⟨"#f", fallbackTimeoutMs, Phase.fallback⟩ : Attempt).timeoutMs =
          heuristicTimeoutMs)) ∧
    heuristicTimeoutMs < fallbackTimeoutMs ∧
    fallbackTimeoutMs < primaryTimeoutMs :=
  ⟨by decide,
   findElement_timeout_tiers (mkPage (fun sel _ => sel == "#f")) defaultConfig
     ⟨"#p", ["#f"], "x", ElementType.link⟩ (initState ["T0"])
     ⟨"#f", fallbackTimeoutMs, Phase.fallback⟩ (by decide) (by decide)⟩

lemma retryLoop_all_fail {ε α : Type} [Inhabited ε] (rd : Nat)
    (op : Nat → Except ε α) (hfail : ∀ k, exceptOk (op k) = false) :
    ∀ (remaining attempt : Nat), 1 ≤ remaining → 1 ≤ attempt →
      retryLoop rd op attempt remaining =
        (op (attempt + remaining - 1), remaining,
         (List.range (remaining - 1)).map
           (fun j => rd * 2 ^ (attempt - 1 + j)))
  | 0, attempt, hr, _ => absurd hr (by simp)
  | 1, attempt, _, _ => by
    rw [retryLoop]
    simp [hfail attempt]
  | remaining + 2, attempt, _, hatt => by
    have ih := retryLoop_all_fail rd op hfail (remaining + 1) (attempt + 1)
      (by omega) (by omega)
    rw [retryLoop]
    simp only [hfail attempt, Bool.false_eq_true, if_false,
      Nat.succ_ne_zero, ih]
    refine Prod.ext ?_ (Prod.ext ?_ ?_) <;> simp only
    · congr 1
      omega
    · have h21 : List.range (remaining + 2 - 1) =
          0 :: (List.range remaining).map Nat.succ :=
        List.range_succ_eq_map remaining
      rw [h21]
      simp only [Nat.add_sub_cancel, List.map_cons, List.map_map,
        Nat.add_zero, List.cons.injEq]
      refine ⟨trivial, ?_⟩
      apply List.map_congr_left
      intro j _
      simp only [Function.comp_apply]
      congr 2
      omega

/-- C7: for an operation failing on every attempt and `maxRetries ≥ 1`,
`retryOperation` invokes the operation exactly `maxRetries` times, waits
`retryDelay * 2 ^ (attempt - 1)` between consecutive attempts (so the
successive delays are non-decreasing), and propagates the outcome of the
last attempt. -/
theorem retryOperation_exhaustion {ε α : Type} [Inhabited ε]
    (cfg : SelfHealingConfig) (op : Nat → Except ε α)
    (hmax : 1 ≤ cfg.maxRetries)
    (hfail : ∀ k, exceptOk (op k) = false) :
    retryOperation cfg op =
      (op cfg.maxRetries, cfg.maxRetries,
       (List.range (cfg.maxRetries - 1)).map
         (fun j => cfg.retryDelay * 2 ^ j)) ∧
    List.Pairwise (· ≤ ·)
      ((List.range (cfg.maxRetries - 1)).map
        (fun j => cfg.retryDelay * 2 ^ j)) ∧
    exceptOk (op cfg.maxRetries) = false := by
  refine ⟨?_, ?_, hfail _⟩
  · have h := retryLoop_all_fail cfg.retryDelay op hfail cfg.maxRetries 1
      hmax le_rfl
    rw [retryOperation, h]
    simp
  · refine List.Pairwise.map _ ?_ (List.pairwise_lt_range _)
    intro a b hab
    exact Nat.mul_le_mul_left _
      (Nat.pow_le_pow_right (by norm_num) (Nat.le_of_lt hab))

/-- Closed witness for `retryOperation_exhaustion`: the default config
(three attempts, 1000 ms base delay) on an always-failing operation makes
exactly three invocations with delays 1000 and 2000 between them, and
rethrows the failure. -/
theorem retryOperation_exhaustion_witness :
    retryOperation defaultConfig
        (fun _ => (Except.error () : Except Unit Unit)) =
      ((Except.error () : Except Unit Unit), 3, [1000, 2000]) := by
  have h := (retryOperation_exhaustion defaultConfig
    (fun _ => (Except.error () : Except Unit Unit)) (by decide)
    (fun _ => rfl)).1
  rw [h]
  rfl

lemma retryLoop_all_fail_isError {ε α : Type} [Inhabited ε] (rd : Nat)
    (op : Nat → Except ε α) (hfail : ∀ k, exceptOk (op k) = false) :
    ∀ (n attempt : Nat), exceptOk (retryLoop rd op attempt n).1 = false
  | 0, attempt => by simp [retryLoop, exceptOk]
  | n + 1, attempt => by
    rw [retryLoop]
    simp only [hfail attempt, Bool.false_eq_true, if_false]
    by_cases hn : n = 0
    · simp [hn, hfail attempt]
    · simp only [hn, if_false]
      exact retryLoop_all_fail_isError rd op hfail n (attempt + 1)

lemma retryOperation_error_unit (cfg : SelfHealingConfig)
    (op : Nat → Except Unit Unit) (hfail : ∀ k, exceptOk (op k) = false) :
    (retryOperation cfg op).1 = Except.error () := by
  have h := retryLoop_all_fail_isError cfg.retryDelay op hfail cfg.maxRetries 1
  rw [retryOperation]
  rcases hr : (retryLoop cfg.retryDelay op 1 cfg.maxRetries).1 with e | a
  · cases e; rfl
  · rw [hr] at h; simp [exceptOk] at h

/-- C8 counterexample: a `getText` call that resolves its element via the
primary selector, whose `textContent()` extraction throws and whose
`innerText()` alternate extraction succeeds — an action-tactic escalation
that appends no healing-log entry, contrary to the claim that every
escalation step appends one. -/
theorem getText_escalation_no_log_counterexample :
    (getText
        { mkPage (fun sel _ => sel == "#p") with
            textContentR := Except.error (), innerTextR := Except.ok "hello" }
        defaultConfig ⟨"#p", [], "x", ElementType.link⟩
        (initState ["T0"])).1 = Except.ok (some "hello") ∧
    (getText
        { mkPage (fun sel _ => sel == "#p") with
            textContentR := Except.error (), innerTextR := Except.ok "hello" }
        defaultConfig ⟨"#p", [], "x", ElementType.link⟩
        (initState ["T0"])).2.healingLog = [] :=
  ⟨rfl, rfl⟩

/-- C8 amended: on a resolved element, each successful escalation beyond
the standard tactic in `click` (forced click, script click) and `fill`
(keyboard fill, script fill) appends exactly one healing-log entry naming
that tactic, while `getText`'s alternate extraction tactics append no
entry; no action tactic captures a screenshot (the screenshot counter is
unchanged from resolution onward). -/
theorem action_escalation_logging (page : Page) (cfg : SelfHealingConfig)
    (s : SelectorStrategy) (st st₁ : EngineState) (el : String)
    (hres : findElement page cfg s st = (Except.ok (some el), st₁)) :
    ((∀ k, page.clickOk k = false) → page.forceClickOk = true →
      (click page cfg s st).1 = Except.ok true ∧
      (click page cfg s st).2.healingLog = st₁.healingLog ++
        [logEntryStr (st₁.tsSupply.headD "") false s.description s.primary
          "force-click"] ∧
      (click page cfg s st).2.screenshots = st₁.screenshots) ∧
    ((∀ k, page.clickOk k = false) → page.forceClickOk = false →
      page.jsClickOk = true →
      (click page cfg s st).1 = Except.ok true ∧
      (click page cfg s st).2.healingLog = st₁.healingLog ++
        [logEntryStr (st₁.tsSupply.headD "") false s.description s.primary
          "js-click"] ∧
      (click page cfg s st).2.screenshots = st₁.screenshots) ∧
    ((∀ k, page.clearFillOk k = false) → page.keyboardFillOk = true →
      (fill page cfg s st).1 = Except.ok true ∧
      (fill page cfg s st).2.healingLog = st₁.healingLog ++
        [logEntryStr (st₁.tsSupply.headD "") false s.description s.primary
          "keyboard-fill"] ∧
      (fill page cfg s st).2.screenshots = st₁.screenshots) ∧
    ((∀ k, page.clearFillOk k = false) → page.keyboardFillOk = false →
      page.jsFillOk = true →
      (fill page cfg s st).1 = Except.ok true ∧
      (fill page cfg s st).2.healingLog = st₁.healingLog ++
        [logEntryStr (st₁.tsSupply.headD "") false s.description s.primary
          "js-fill"] ∧
      (fill page cfg s st).2.screenshots = st₁.screenshots) ∧
    ((getText page cfg s st).2.healingLog = st₁.healingLog ∧
      (getText page cfg s st).2.screenshots = st₁.screenshots) := by
  refine ⟨?_, ?_, ?_, ?_, ?_⟩
  · intro hclick hforce
    have herr : (retryOperation cfg (clickOp page)).1 = Except.error () :=
      retryOperation_error_unit cfg _ (fun k => by simp [clickOp, hclick k, exceptOk])
    rcases hro : retryOperation cfg (clickOp page) with ⟨r, n, ds⟩
    rw [hro] at herr
    simp only at herr
    subst herr
    simp [click, hres, hro, hforce]
  · intro hclick hforce hjs
    have herr : (retryOperation cfg (clickOp page)).1 = Except.error () :=
      retryOperation_error_unit cfg _ (fun k => by simp [clickOp, hclick k, exceptOk])
    rcases hro : retryOperation cfg (clickOp page) with ⟨r, n, ds⟩
    rw [hro] at herr
    simp only at herr
    subst herr
    simp [click, hres, hro, hforce, hjs]
  · intro hcf hkb
    have herr : (retryOperation cfg (clearFillOp page)).1 = Except.error () :=
      retryOperation_error_unit cfg _ (fun k => by simp [clearFillOp, hcf k, exceptOk])
    rcases hro : retryOperation cfg (clearFillOp page) with ⟨r, n, ds⟩
    rw [hro] at herr
    simp only at herr
    subst herr
    simp [fill, hres, hro, hkb]
  · intro hcf hkb hjs
    have herr : (retryOperation cfg (clearFillOp page)).1 = Except.error () :=
      retryOperation_error_unit cfg _ (fun k => by simp [clearFillOp, hcf k, exceptOk])
    rcases hro : retryOperation cfg (clearFillOp page) with ⟨r, n, ds⟩
    rw [hro] at herr
    simp only at herr
    subst herr
    simp [fill, hres, hro, hkb, hjs]
  · cases htc : page.textContentR with
    | ok t => simp [getText, hres, htc]
    | error e =>
      cases hit : page.innerTextR with
      | ok t => simp [getText, hres, htc, hit]
      | error e' =>
        cases hev : page.evalTextR with
        | ok t => simp [getText, hres, htc, hit, hev]
        | error e'' => simp [getText, hres, htc, hit, hev]

/-- Closed witness for `action_escalation_logging`: a concrete run whose
standard click always fails and whose forced click succeeds appends
exactly the force-click entry. -/
theorem action_escalation_logging_witness :
    (click
        { mkPage (fun sel _ => sel == "#p") with
            clickOk := fun _ => false, forceClickOk := true }
        defaultConfig ⟨"#p", [], "x", ElementType.link⟩
        (initState ["T0"])).1 = Except.ok true ∧
    (click
        { mkPage (fun sel _ => sel == "#p") with
            clickOk := fun _ => false, forceClickOk := true }
        defaultConfig ⟨"#p", [], "x", ElementType.link⟩
        (initState ["T0"])).2.healingLog =
      ["T0 - 🔧 HEALED - x: #p → force-click"] := by
  have h := ((action_escalation_logging
    { mkPage (fun sel _ => sel == "#p") with
        clickOk := fun _ => false, forceClickOk := true }
    defaultConfig ⟨"#p", [], "x", ElementType.link⟩ (initState ["T0"])
    { initState ["T0"] with
        console := ["✅ Primary selector worked: #p (x)"],
        attempts := [⟨"#p", primaryTimeoutMs, Phase.primary⟩] }
    "#p" rfl).1 (fun _ => rfl) rfl)
  exact ⟨h.1, h.2.1⟩

lemma core_recordAttempt_congr (sel : String) (t : Nat) (ph : Phase)
    {st₁ st₂ : EngineState} (h : st₁.core = st₂.core) :
    (recordAttempt sel t ph st₁).core = (recordAttempt sel t ph st₂).core := by
  simp only [EngineState.core, CoreState.mk.injEq, recordAttempt_healingLog,
    recordAttempt_attempts, recordAttempt_screenshots, recordAttempt_delays,
    recordAttempt_tsSupply] at h ⊢
  obtain ⟨h1, h2, h3, h4, h5⟩ := h
  exact ⟨h1, by rw [h2], h3, h4, h5⟩

lemma core_logHealing_congr (cfg₁ cfg₂ : SelfHealingConfig)
    (o hs d : String) (f : Bool) {st₁ st₂ : EngineState}
    (h : st₁.core = st₂.core) :
    (logHealing cfg₁ o hs d f st₁).core =
      (logHealing cfg₂ o hs d f st₂).core := by
  simp only [EngineState.core, CoreState.mk.injEq, logHealing_healingLog,
    logHealing_attempts, logHealing_screenshots, logHealing_delays,
    logHealing_tsSupply] at h ⊢
  obtain ⟨h1, h2, h3, h4, h5⟩ := h
  exact ⟨by rw [h1, h5], h2, h3, h4, by rw [h5]⟩

lemma core_bumpScreenshots_congr {st₁ st₂ : EngineState}
    (h : st₁.core = st₂.core) :
    ({ st₁ with screenshots := st₁.screenshots + 1 } : EngineState).core =
      ({ st₂ with screenshots := st₂.screenshots + 1 } : EngineState).core := by
  simp only [EngineState.core, CoreState.mk.injEq] at h ⊢
  obtain ⟨h1, h2, h3, h4, h5⟩ := h
  exact ⟨h1, h2, by rw [h3], h4, h5⟩

lemma tryStrategies_core_congr (page : Page) :
    ∀ (l : List String) (st₁ st₂ : EngineState), st₁.core = st₂.core →
      (tryStrategies page l st₁).1 = (tryStrategies page l st₂).1 ∧
      (tryStrategies page l st₁).2.core = (tryStrategies page l st₂).2.core
  | [], st₁, st₂, h => ⟨rfl, h⟩
  | c :: rest, st₁, st₂, h => by
    have hrec := tryStrategies_core_congr page rest
      (recordAttempt c heuristicTimeoutMs Phase.heuristic st₁)
      (recordAttempt c heuristicTimeoutMs Phase.heuristic st₂)
      (core_recordAttempt_congr _ _ _ h)
    by_cases hc : page.waitForOk c heuristicTimeoutMs
    · simp only [tryStrategies, hc, if_true]
      exact ⟨trivial, core_recordAttempt_congr _ _ _ h⟩
    · simp only [Bool.not_eq_true] at hc
      simp only [tryStrategies, hc, Bool.false_eq_true, if_false]
      exact hrec

lemma tryFallbacks_core_congr (page : Page) (cfg₁ cfg₂ : SelfHealingConfig)
    (p d : String) :
    ∀ (l : List String) (k : Nat) (st₁ st₂ : EngineState),
      st₁.core = st₂.core →
      (tryFallbacks page cfg₁ p d l k st₁).1 =
        (tryFallbacks page cfg₂ p d l k st₂).1 ∧
      (tryFallbacks page cfg₁ p d l k st₁).2.core =
        (tryFallbacks page cfg₂ p d l k st₂).2.core
  | [], k, st₁, st₂, h => ⟨rfl, h⟩
  | fb :: rest, k, st₁, st₂, h => by
    have hrec := tryFallbacks_core_congr page cfg₁ cfg₂ p d rest (k + 1)
      (consoleLog cfg₁ ("❌ Fallback " ++ toString (k + 1) ++ " failed: " ++ fb)
        (recordAttempt fb fallbackTimeoutMs Phase.fallback st₁))
      (consoleLog cfg₂ ("❌ Fallback " ++ toString (k + 1) ++ " failed: " ++ fb)
        (recordAttempt fb fallbackTimeoutMs Phase.fallback st₂))
      (by
        rw [consoleLog_core, consoleLog_core]
        exact core_recordAttempt_congr _ _ _ h)
    by_cases hfb : page.waitForOk fb fallbackTimeoutMs
    · simp only [tryFallbacks, hfb, if_true]
      exact ⟨trivial, core_logHealing_congr cfg₁ cfg₂ _ _ _ _
        (core_recordAttempt_congr _ _ _ h)⟩
    · simp only [Bool.not_eq_true] at hfb
      simp only [tryFallbacks, hfb, Bool.false_eq_true, if_false]
      exact hrec

lemma findElement_core_congr (page : Page) (cfg : SelfHealingConfig)
    (s : SelectorStrategy) (b₁ b₂ : Bool) (st : EngineState) :
    (findElement page { cfg with enableLogging := b₁ } s st).1 =
      (findElement page { cfg with enableLogging := b₂ } s st).1 ∧
    (findElement page { cfg with enableLogging := b₁ } s st).2.core =
      (findElement page { cfg with enableLogging := b₂ } s st).2.core := by
  by_cases hp : page.waitForOk s.primary primaryTimeoutMs
  · simp only [findElement, hp, if_true]
    exact ⟨trivial, by rw [consoleLog_core, consoleLog_core]⟩
  · simp only [Bool.not_eq_true] at hp
    have hfbcon := tryFallbacks_core_congr page { cfg with enableLogging := b₁ }
      { cfg with enableLogging := b₂ } s.primary s.description s.fallbacks 0
      (consoleLog { cfg with enableLogging := b₁ }
        ("❌ Primary selector failed: " ++ s.primary ++ " (" ++ s.description ++ ")")
        (recordAttempt s.primary primaryTimeoutMs Phase.primary st))
      (consoleLog { cfg with enableLogging := b₂ }
        ("❌ Primary selector failed: " ++ s.primary ++ " (" ++ s.description ++ ")")
        (recordAttempt s.primary primaryTimeoutMs Phase.primary st))
      (by rw [consoleLog_core, consoleLog_core])
    rcases hpairA : tryFallbacks page { cfg with enableLogging := b₁ }
        s.primary s.description s.fallbacks 0
        (consoleLog { cfg with enableLogging := b₁ }
          ("❌ Primary selector failed: " ++ s.primary ++ " (" ++ s.description ++ ")")
          (recordAttempt s.primary primaryTimeoutMs Phase.primary st))
      with ⟨rA, stA⟩
    rcases hpairB : tryFallbacks page { cfg with enableLogging := b₂ }
        s.primary s.description s.fallbacks 0
        (consoleLog { cfg with enableLogging := b₂ }
          ("❌ Primary selector failed: " ++ s.primary ++ " (" ++ s.description ++ ")")
          (recordAttempt s.primary primaryTimeoutMs Phase.primary st))
      with ⟨rB, stB⟩
    rw [hpairA, hpairB] at hfbcon
    obtain ⟨hrAB, hcAB⟩ := hfbcon
    simp only at hrAB hcAB
    subst hrAB
    cases rA with
    | some fb =>
      simp only [findElement, hp, Bool.false_eq_true, if_false, hpairA, hpairB]
      exact ⟨trivial, hcAB⟩
    | none =>
      have hheucon := tryStrategies_core_congr page
        (intelligentCandidates s.elementType (jsToLower s.description))
        stA stB hcAB
      rcases hpair2A : tryStrategies page
          (intelligentCandidates s.elementType (jsToLower s.description)) stA
        with ⟨r2A, stA2⟩
      rcases hpair2B : tryStrategies page
          (intelligentCandidates s.elementType (jsToLower s.description)) stB
        with ⟨r2B, stB2⟩
      rw [hpair2A, hpair2B] at hheucon
      obtain ⟨hr2, hc2⟩ := hheucon
      simp only at hr2 hc2
      subst hr2
      cases r2A with
      | some c =>
        simp only [findElement, hp, Bool.false_eq_true, if_false, hpairA,
          hpairB, hpair2A, hpair2B]
        exact ⟨trivial, core_logHealing_congr _ _ _ _ _ _ hc2⟩
      | none =>
        simp only [findElement, hp, Bool.false_eq_true, if_false, hpairA,
          hpairB, hpair2A, hpair2B]
        by_cases hsf : cfg.screenshotOnFailure
        · by_cases hok : page.screenshotOk
          · simp only [hsf, hok, if_true]
            exact ⟨trivial, core_logHealing_congr _ _ _ _ _ _
              (core_bumpScreenshots_congr hc2)⟩
          · simp only [Bool.not_eq_true] at hok
            simp only [hsf, hok, Bool.false_eq_true, if_false, if_true]
            exact ⟨trivial, hc2⟩
        · simp only [Bool.not_eq_true] at hsf
          simp only [hsf, Bool.false_eq_true, if_false]
          exact ⟨trivial, core_logHealing_congr _ _ _ _ _ _ hc2⟩

lemma core_appendDelays_congr (ds : List Nat) {st₁ st₂ : EngineState}
    (h : st₁.core = st₂.core) :
    ({ st₁ with delays := st₁.delays ++ ds } : EngineState).core =
      ({ st₂ with delays := st₂.delays ++ ds } : EngineState).core := by
  simp only [EngineState.core, CoreState.mk.injEq] at h ⊢
  obtain ⟨h1, h2, h3, h4, h5⟩ := h
  exact ⟨h1, h2, h3, by rw [h4], h5⟩

lemma click_core_congr (page : Page) (cfg : SelfHealingConfig)
    (s : SelectorStrategy) (b₁ b₂ : Bool) (st : EngineState) :
    (click page { cfg with enableLogging := b₁ } s st).1 =
      (click page { cfg with enableLogging := b₂ } s st).1 ∧
    (click page { cfg with enableLogging := b₁ } s st).2.core =
      (click page { cfg with enableLogging := b₂ } s st).2.core := by
  have hfe := findElement_core_congr page cfg s b₁ b₂ st
  rcases hA : findElement page { cfg with enableLogging := b₁ } s st
    with ⟨rA, stA⟩
  rcases hB : findElement page { cfg with enableLogging := b₂ } s st
    with ⟨rB, stB⟩
  rw [hA, hB] at hfe
  obtain ⟨hr, hc⟩ := hfe
  simp only at hr hc
  subst hr
  have hro : retryOperation { cfg with enableLogging := b₁ } (clickOp page) =
      retryOperation { cfg with enableLogging := b₂ } (clickOp page) := rfl
  cases rA with
  | error e =>
    simp only [click, hA, hB]
    exact ⟨by trivial, hc⟩
  | ok o =>
    cases o with
    | none =>
      simp only [click, hA, hB]
      exact ⟨by trivial, hc⟩
    | some el =>
      rcases hop : retryOperation { cfg with enableLogging := b₂ }
        (clickOp page) with ⟨r, n, ds⟩
      simp only [click, hA, hB, hro, hop]
      cases r with
      | ok u => exact ⟨by trivial, core_appendDelays_congr ds hc⟩
      | error e =>
        by_cases hforce : page.forceClickOk
        · simp only [hforce, if_true]
          exact ⟨by trivial, core_logHealing_congr _ _ _ _ _ _
            (core_appendDelays_congr ds hc)⟩
        · simp only [Bool.not_eq_true] at hforce
          by_cases hjs : page.jsClickOk
          · simp only [hforce, hjs, Bool.false_eq_true, if_false, if_true]
            exact ⟨by trivial, core_logHealing_congr _ _ _ _ _ _
              (core_appendDelays_congr ds hc)⟩
          · simp only [Bool.not_eq_true] at hjs
            simp only [hforce, hjs, Bool.false_eq_true, if_false]
            exact ⟨by trivial, core_appendDelays_congr ds hc⟩

lemma fill_core_congr (page : Page) (cfg : SelfHealingConfig)
    (s : SelectorStrategy) (b₁ b₂ : Bool) (st : EngineState) :
    (fill page { cfg with enableLogging := b₁ } s st).1 =
      (fill page { cfg with enableLogging := b₂ } s st).1 ∧
    (fill page { cfg with enableLogging := b₁ } s st).2.core =
      (fill page { cfg with enableLogging := b₂ } s st).2.core := by
  have hfe := findElement_core_congr page cfg s b₁ b₂ st
  rcases hA : findElement page { cfg with enableLogging := b₁ } s st
    with ⟨rA, stA⟩
  rcases hB : findElement page { cfg with enableLogging := b₂ } s st
    with ⟨rB, stB⟩
  rw [hA, hB] at hfe
  obtain ⟨hr, hc⟩ := hfe
  simp only at hr hc
  subst hr
  have hro : retryOperation { cfg with enableLogging := b₁ } (clearFillOp page) =
      retryOperation { cfg with enableLogging := b₂ } (clearFillOp page) := rfl
  cases rA with
  | error e =>
    simp only [fill, hA, hB]
    exact ⟨by trivial, hc⟩
  | ok o =>
    cases o with
    | none =>
      simp only [fill, hA, hB]
      exact ⟨by trivial, hc⟩
    | some el =>
      rcases hop : retryOperation { cfg with enableLogging := b₂ }
        (clearFillOp page) with ⟨r, n, ds⟩
      simp only [fill, hA, hB, hro, hop]
      cases r with
      | ok u => exact ⟨by trivial, core_appendDelays_congr ds hc⟩
      | error e =>
        by_cases hkb : page.keyboardFillOk
        · simp only [hkb, if_true]
          exact ⟨by trivial, core_logHealing_congr _ _ _ _ _ _
            (core_appendDelays_congr ds hc)⟩
        · simp only [Bool.not_eq_true] at hkb
          by_cases hjs : page.jsFillOk
          · simp only [hkb, hjs, Bool.false_eq_true, if_false, if_true]
            exact ⟨by trivial, core_logHealing_congr _ _ _ _ _ _
              (core_appendDelays_congr ds hc)⟩
          · simp only [Bool.not_eq_true] at hjs
            simp only [hkb, hjs, Bool.false_eq_true, if_false]
            exact ⟨by trivial, core_appendDelays_congr ds hc⟩

/-- C10: two runs of `findElement`, `click` or `fill` that differ only in
`enableLogging` return the same result and accumulate the same healing
log — `enableLogging` influences console output only, never the log
contents or the operation's outcome. -/
theorem enableLogging_noninterference (page : Page) (cfg : SelfHealingConfig)
    (s : SelectorStrategy) (st : EngineState) (b₁ b₂ : Bool) :
    ((findElement page { cfg with enableLogging := b₁ } s st).1 =
        (findElement page { cfg with enableLogging := b₂ } s st).1 ∧
      (findElement page { cfg with enableLogging := b₁ } s st).2.healingLog =
        (findElement page { cfg with enableLogging := b₂ } s st).2.healingLog) ∧
    ((click page { cfg with enableLogging := b₁ } s st).1 =
        (click page { cfg with enableLogging := b₂ } s st).1 ∧
      (click page { cfg with enableLogging := b₁ } s st).2.healingLog =
        (click page { cfg with enableLogging := b₂ } s st).2.healingLog) ∧
    ((fill page { cfg with enableLogging := b₁ } s st).1 =
        (fill page { cfg with enableLogging := b₂ } s st).1 ∧
      (fill page { cfg with enableLogging := b₁ } s st).2.healingLog =
        (fill page { cfg with enableLogging := b₂ } s st).2.healingLog) := by
  have hfe := findElement_core_congr page cfg s b₁ b₂ st
  have hck := click_core_congr page cfg s b₁ b₂ st
  have hfl := fill_core_congr page cfg s b₁ b₂ st
  exact ⟨⟨hfe.1, congrArg CoreState.healingLog hfe.2⟩,
    ⟨hck.1, congrArg CoreState.healingLog hck.2⟩,
    ⟨hfl.1, congrArg CoreState.healingLog hfl.2⟩⟩

end SelfHealing
